import Mathlib

/-!
Shallow embedding of `atax_file_maneger.py` (an interactive curses file
manager), covering the browser state machine (`FileManager.run`), the
listing pipeline (`FileManager.refresh_files`), navigation, the clipboard
transfer engine (`copy_file` / `cut_file` / `paste_file`), deletion,
renaming, directory creation, sort cycling and the metadata formatter
(`get_file_info` / `format_size`).

The filesystem is the external collaborator of the program.  It is
modelled as a snapshot: a list of nodes (absolute path as a list of
components, kind flag, stat metadata), a set of directories whose
`iterdir` raises `PermissionError`, and a set of paths that were listed
but whose `stat`/`exists` calls now fail (entry removed between listing
and stat).  The semantics of the `shutil` / `os` primitives the program
calls (`copy2`, `copytree`, `move`, `rename`, `rmtree`, `unlink`,
`mkdir`) follow their documented CPython behaviour.

Python strings are modelled as `String`; `str.lower`, `str.startswith`,
the substring test `in` and string comparison are re-implemented over
`List Char` because they must evaluate inside kernel reduction.  Python's
`str.lower` is modelled by ASCII lowering (the program only feeds it
file names and search queries; non-ASCII case folding is not modelled).
-/

/-- ASCII lowering of one character, the `str.lower` behaviour on ASCII. -/
def lowerChar (c : Char) : Char :=
  if 65 ≤ c.toNat ∧ c.toNat ≤ 90 then Char.ofNat (c.toNat + 32) else c

/-- Character list of `s.lower()`. -/
def lowerStr (s : String) : List Char := s.data.map lowerChar

/-- Lexicographic `≤` on character lists by code point, Python's `str` order. -/
def charListLe : List Char → List Char → Bool
  | [], _ => true
  | _ :: _, [] => false
  | a :: as, b :: bs =>
    if a.toNat < b.toNat then true
    else if b.toNat < a.toNat then false
    else charListLe as bs

/-- Nat comparison as a `Bool` relation, for the size / mtime sort keys. -/
def natLeB (a b : Nat) : Bool := a ≤ b

/-- Boolean prefix test on character lists, Python's `str.startswith`. -/
def prefixB : List Char → List Char → Bool
  | [], _ => true
  | _ :: _, [] => false
  | a :: as, b :: bs => a == b && prefixB as bs

/-- Boolean contiguous-sublist test, Python's `needle in hay` on strings. -/
def sublistB (needle : List Char) : List Char → Bool
  | [] => needle.isEmpty
  | h :: t => prefixB needle (h :: t) || sublistB needle t

/-- Index (from the left) of the last occurrence of a dot, `name.rfind('.')`
turned into an `Option` (Python returns `-1` when absent). -/
def lastDotIdx : List Char → Option Nat
  | [] => none
  | c :: cs =>
    match lastDotIdx cs with
    | some i => some (i + 1)
    | none => if c == '.' then some 0 else none

/-- Character list of `pathlib.PurePath(name).suffix`: the part of the final
component from the last dot on, empty when the dot is leading or trailing
or absent. -/
def pySuffixCL (name : List Char) : List Char :=
  match lastDotIdx name with
  | some i => if 0 < i ∧ i < name.length - 1 then name.drop i else []
  | none => []

/-- Stable insertion of `a` into `l`: `a` goes before the first element it
compares `le`-below-or-equal to.  With `le a b = (key a ≤ key b)` this is
the insertion step of a stable ascending sort. -/
def insertLe {α : Type} (le : α → α → Bool) (a : α) : List α → List α
  | [] => [a]
  | b :: l => if le a b then a :: b :: l else b :: insertLe le a l

/-- Stable insertion sort; extensionally equal to CPython's stable
`list.sort` for any total preorder `le`. -/
def sortLe {α : Type} (le : α → α → Bool) : List α → List α
  | [] => []
  | a :: l => insertLe le a (sortLe le l)

/-- Python's `l.sort(key=key, reverse=rev)`: stable ascending by `key`, and
with `reverse=True` descending with ties kept in original order (the
comparison is flipped, stability is preserved). -/
def pySortKey {α K : Type} (le : K → K → Bool) (key : α → K) (rev : Bool)
    (l : List α) : List α :=
  if rev then sortLe (fun a b => le (key b) (key a)) l
  else sortLe (fun a b => le (key a) (key b)) l

/-- One filesystem node of the snapshot: absolute path (component list),
kind, and the stat fields the program reads. -/
structure FsNode where
  path : List String
  isDir : Bool
  size : Nat
  mtime : Nat
  mode : Nat
  uid : Nat
  gid : Nat
  ino : Nat
  deriving Repr, DecidableEq, Inhabited

/-- Filesystem snapshot.  `unreadable`: directories whose `iterdir` raises
`PermissionError`.  `vanished`: paths still present in the directory
listing snapshot but whose `stat` / `exists` / `is_dir` calls fail
(the entry was removed between the listing and the stat). -/
structure Fs where
  nodes : List FsNode
  unreadable : List (List String)
  vanished : List (List String)
  deriving Repr, DecidableEq

/-- Node lookup by exact path. -/
def fsFind (fs : Fs) (p : List String) : Option FsNode :=
  fs.nodes.find? (fun n => decide (n.path = p))

/-- Python `os.path.exists(p)` / `Path(p).exists()` against the snapshot. -/
def fsExistsLive (fs : Fs) (p : List String) : Bool :=
  (fsFind fs p).isSome && !(fs.vanished.contains p)

/-- Python `Path(p).is_dir()` against the snapshot. -/
def fsIsDirLive (fs : Fs) (p : List String) : Bool :=
  match fsFind fs p with
  | some n => n.isDir && !(fs.vanished.contains p)
  | none => false

/-- Final path component, Python's `Path.name` (empty at the root). -/
def nodeName (n : FsNode) : String := n.path.getLastD ""

/-- Direct children of `cur` in the snapshot, the result of
`Path(cur).iterdir()`. -/
def fsChildren (fs : Fs) (cur : List String) : List FsNode :=
  fs.nodes.filter (fun n => decide (n.path.dropLast = cur) && decide (n.path ≠ []))

/-- Sort key used by the `size` and `modified` branches:
`x.stat().st_size if x.exists() else 0` (and the mtime analogue). -/
def statKey (fs : Fs) (field : FsNode → Nat) (x : FsNode) : Nat :=
  if fsExistsLive fs x.path then field x else 0

/-- The four `dirs.sort(...)` / `files.sort(...)` branches of
`refresh_files`, keyed on the `sort_by` string exactly as the source
compares it; an unrecognized key sorts nothing (no branch matches). -/
def sortListing (fs : Fs) (sort_by : String) (sort_reverse : Bool)
    (l : List FsNode) : List FsNode :=
  if sort_by = "name" then
    pySortKey charListLe (fun x => lowerStr (nodeName x)) sort_reverse l
  else if sort_by = "size" then
    pySortKey natLeB (statKey fs (fun n => n.size)) sort_reverse l
  else if sort_by = "modified" then
    pySortKey natLeB (statKey fs (fun n => n.mtime)) sort_reverse l
  else if sort_by = "type" then
    pySortKey charListLe (fun x => (pySuffixCL (nodeName x).data).map lowerChar)
      sort_reverse l
  else l

/-- `FileManager.refresh_files`: list the current directory, drop hidden
names unless `show_hidden`, partition into directories and files (live
`is_dir` checks), sort each partition by the active key and direction,
concatenate directories first, then — only while search mode is on with a
non-empty query — keep the names containing the query case-insensitively.
`PermissionError` from `iterdir` is caught and yields the empty listing;
the function is total and never raises to its caller. -/
def refresh_files (fs : Fs) (cur : List String) (sort_by : String)
    (sort_reverse : Bool) (show_hidden : Bool) (search_mode : Bool)
    (search_query : String) : List FsNode :=
  if cur ∈ fs.unreadable then []
  else
    let all1 := fsChildren fs cur
    let all2 := if show_hidden then all1
      else all1.filter (fun f => !prefixB ['.'] (nodeName f).data)
    let dirs := all2.filter (fun f => fsIsDirLive fs f.path)
    let files := all2.filter (fun f => !fsIsDirLive fs f.path)
    let res := sortListing fs sort_by sort_reverse dirs ++
      sortListing fs sort_by sort_reverse files
    if search_mode ∧ search_query ≠ "" then
      res.filter (fun f => sublistB (lowerStr search_query) (lowerStr (nodeName f)))
    else res

/-- Browser session state: the mutable attributes of the `FileManager`
object that the event loop reads and writes.  `pane_height` is derived
from the terminal size on every frame and is therefore a parameter of the
step function, not persisted state. -/
structure FMState where
  current_path : List String
  selected_index : Nat
  top_index : Nat
  files : List FsNode
  sort_by : String
  sort_reverse : Bool
  show_hidden : Bool
  clipboard : Option (List String)
  clipboard_type : Option String
  search_mode : Bool
  search_query : String
  quit : Bool
  deriving Repr, DecidableEq

/-- Recompute `st.files` by `self.refresh_files()` against the snapshot. -/
def refreshSt (fs : Fs) (st : FMState) : FMState :=
  { st with files := (refresh_files fs st.current_path st.sort_by st.sort_reverse
      st.show_hidden st.search_mode st.search_query) }

/-- Round `num / den` to the nearest integer, ties to even (the rounding
of CPython's float formatting). -/
def roundTiesEven (num den : Nat) : Nat :=
  let q := num / den
  let r := num % den
  if 2 * r < den then q
  else if den < 2 * r then q + 1
  else if q % 2 = 0 then q else q + 1

/-- Decimal rendering of `num / den` with one fractional digit, the
`f"{x:.1f}"` format.  CPython computes in IEEE-754 binary floating point;
this model uses exact rational arithmetic, which agrees on every value the
program can reach except possibly at decimal rounding boundaries of the
binary approximation (no claim observes those). -/
def fmt1f (num den : Nat) : String :=
  let t := roundTiesEven (num * 10) den
  toString (t / 10) ++ "." ++ toString (t % 10)

/-- `FileManager.format_size`: repeatedly divide by 1024 through the unit
list and render with one fractional digit. -/
def format_size (size : Nat) : String :=
  let rec go (num den : Nat) : List String → String
    | [] => fmt1f num den ++ " PiB"
    | u :: us => if num < 1024 * den then fmt1f num den ++ " " ++ u
        else go num (den * 1024) us
  go size 1 ["B", "KiB", "MiB", "GiB", "TiB"]

/-- Permission string of `get_file_info`: for USR, GRP, OTH test the R, W,
X bits of `st_mode` in that order, writing the lowercase letter or a dash. -/
def permString (mode : Nat) : String :=
  String.join
    (([(256, "r"), (128, "w"), (64, "x"), (32, "r"), (16, "w"), (8, "x"),
       (4, "r"), (2, "w"), (1, "x")] : List (Nat × String)).map
      (fun pc => if mode &&& pc.1 ≠ 0 then pc.2 else "-"))

/-- Environment collaborators of `get_file_info`: `pwd.getpwuid` /
`grp.getgrgid` name resolution (None models their KeyError) and the
local-timezone `datetime.fromtimestamp(...).strftime('%Y-%m-%d %H:%M')`
rendering, which depends on the process timezone and is therefore a
parameter. -/
structure Env where
  pwName : Nat → Option String
  grName : Nat → Option String
  fmtTime : Nat → String

/-- Result dictionary of `get_file_info`.  Python stores the inode as an
`int` on success and the string `"?"` on failure; modelled as `Option Nat`. -/
structure FileInfo where
  size : String
  permissions : String
  owner : String
  group : String
  modified : String
  inode : Option Nat
  deriving Repr, DecidableEq

/-- Result of `filepath.stat()` against the snapshot: `none` when the stat
raises (path gone or never present). -/
def fsStat (fs : Fs) (p : List String) : Option FsNode :=
  if fs.vanished.contains p then none else fsFind fs p

/-- `FileManager.get_file_info`: format the stat result for display; any
stat failure yields the fixed placeholder dictionary instead of raising. -/
def get_file_info (env : Env) (fs : Fs) (p : List String) : FileInfo :=
  match fsStat fs p with
  | some n =>
    { size := format_size n.size
      permissions := permString n.mode
      owner := (env.pwName n.uid).getD (toString n.uid)
      group := (env.grName n.gid).getD (toString n.gid)
      modified := env.fmtTime n.mtime
      inode := some n.ino }
  | none =>
    { size := "0 B"
      permissions := "????????"
      owner := "?"
      group := "?"
      modified := "????-??-?? ??:??"
      inode := none }

/-! Filesystem mutation primitives, with the documented CPython semantics
of the `os` / `shutil` calls the program makes.  Each returns
`Except String Fs`: `.error` models the raised exception (the message
stands in for `str(e)`; only which branch raised is observable to the
claims, not the exact exception text). -/

/-- Remove every node, unreadable mark and vanished mark at or below `p`. -/
def eraseSubtree (fs : Fs) (p : List String) : Fs :=
  ⟨fs.nodes.filter (fun n => !decide (p <+: n.path)),
   fs.unreadable.filter (fun q => !decide (p <+: q)),
   fs.vanished.filter (fun q => !decide (p <+: q))⟩

/-- Re-root one node from under `src` to under `dst`. -/
def rebaseNode (src dst : List String) (n : FsNode) : FsNode :=
  { n with path := dst ++ n.path.drop src.length }

/-- Move the whole subtree at `src` to `dst`, overwriting whatever single
node sat exactly at `dst`. -/
def relocate (fs : Fs) (src dst : List String) : Fs :=
  let movedNodes := (fs.nodes.filter (fun n => decide (src <+: n.path))).map
    (rebaseNode src dst)
  let movedUnr := (fs.unreadable.filter (fun q => decide (src <+: q))).map
    (fun q => dst ++ q.drop src.length)
  let movedVan := (fs.vanished.filter (fun q => decide (src <+: q))).map
    (fun q => dst ++ q.drop src.length)
  let base := eraseSubtree (eraseSubtree fs src) dst
  ⟨base.nodes ++ movedNodes, base.unreadable ++ movedUnr,
   base.vanished ++ movedVan⟩

/-- True when the directory `p` has at least one entry in the snapshot. -/
def dirNonEmpty (fs : Fs) (p : List String) : Bool :=
  !(fs.nodes.filter (fun n => decide (p <+: n.path) && decide (n.path ≠ p))).isEmpty

/-- POSIX `os.rename`: fails on a missing source or a rename into the
source's own subtree; silently replaces an existing regular file with a
regular file; replaces an existing empty directory with a directory;
any other collision of kinds raises. -/
def os_rename (fs : Fs) (src dst : List String) : Except String Fs :=
  if !fsExistsLive fs src then .error "FileNotFoundError"
  else if src = dst then .ok fs
  else if decide (src <+: dst) then .error "OSError: Invalid argument"
  else
    let srcIsDir := fsIsDirLive fs src
    match fsFind fs dst with
    | some dn =>
      if fs.vanished.contains dst then .ok (relocate fs src dst)
      else if srcIsDir && dn.isDir && !dirNonEmpty fs dst then
        .ok (relocate fs src dst)
      else if !srcIsDir && !dn.isDir then .ok (relocate fs src dst)
      else .error "OSError"
    | none => .ok (relocate fs src dst)

/-- `shutil.move`: when the destination is an existing directory the
source is moved inside it, refusing if the name already exists there;
otherwise it renames onto the destination path (single filesystem, so the
copy-then-delete fallback is never taken). -/
def shutil_move (fs : Fs) (src dst : List String) : Except String Fs :=
  if fsIsDirLive fs dst then
    let real_dst := dst ++ [src.getLastD ""]
    if fsExistsLive fs real_dst then
      .error "Destination path already exists"
    else os_rename fs src real_dst
  else os_rename fs src dst

/-- `shutil.copy2`: copy one regular file with its metadata.  A
destination that is an existing directory receives the file inside
itself; a destination that is an existing regular file is silently
overwritten; a missing or directory source raises.  The owner and inode
of the written file are environment-determined and are modelled as
carried over, which no claim observes. -/
def copy2 (fs : Fs) (src dst0 : List String) : Except String Fs :=
  let dst := if fsIsDirLive fs dst0 then dst0 ++ [src.getLastD ""] else dst0
  if !fsExistsLive fs src then .error "FileNotFoundError"
  else if src = dst then .error "SameFileError"
  else if fsIsDirLive fs src then .error "IsADirectoryError"
  else if fsIsDirLive fs dst then .error "IsADirectoryError"
  else
    match fsFind fs src with
    | some sn =>
      let base := eraseSubtree fs dst
      .ok ⟨base.nodes ++ [{ sn with path := dst }], base.unreadable,
        base.vanished.filter (fun q => !decide (q = dst))⟩
    | none => .error "FileNotFoundError"

/-- `shutil.copytree`: recursively duplicate a directory.  It scans the
source first (missing or non-directory source raises), then `os.makedirs`
the destination, raising `FileExistsError` before copying anything when
the destination already exists; an unreadable source raises (the partial
destination a mid-copy failure can leave behind is not modelled — no
claim observes it). -/
def copytree (fs : Fs) (src dst : List String) : Except String Fs :=
  if !fsExistsLive fs src then .error "FileNotFoundError"
  else if !fsIsDirLive fs src then .error "NotADirectoryError"
  else if fsExistsLive fs dst then .error "FileExistsError"
  else if fs.unreadable.any (fun q => decide (src <+: q)) then
    .error "PermissionError"
  else
    let copied := (fs.nodes.filter (fun n => decide (src <+: n.path))).map
      (rebaseNode src dst)
    .ok ⟨fs.nodes ++ copied, fs.unreadable,
      fs.vanished.filter (fun q => !decide (dst <+: q))⟩

/-! Command handlers.  Each mirrors one `FileManager` method; handlers
that touch the filesystem return the possibly-updated snapshot, the
updated state and the list of `show_message` texts they emitted. -/

/-- `FileManager.navigate_to_parent`: no-op at the root, otherwise go to
the parent and reset selection and scroll before refreshing. -/
def navigate_to_parent (fs : Fs) (st : FMState) : FMState :=
  if st.current_path ≠ [] then
    refreshSt fs { st with
      current_path := st.current_path.dropLast
      selected_index := 0
      top_index := 0 }
  else st

/-- `FileManager.navigate_into`: when the selected entry is (live) a
directory, set it as the current path, reset selection and scroll, and
refresh.  The `except PermissionError` handler in the source is
unreachable: `refresh_files` catches the error itself and returns the
empty listing, so no message is ever emitted and the path assignment is
never undone. -/
def navigate_into (fs : Fs) (st : FMState) : FMState × List String :=
  match st.files[st.selected_index]? with
  | some selected =>
    if fsIsDirLive fs selected.path then
      (refreshSt fs { st with
        current_path := selected.path
        selected_index := 0
        top_index := 0 }, [])
    else (st, [])
  | none => (st, [])

/-- `FileManager.copy_file`: mark the selected entry for copy. -/
def copy_file (st : FMState) : FMState × List String :=
  match st.files[st.selected_index]? with
  | some f => ({ st with clipboard := some f.path, clipboard_type := some "copy" },
      ["'" ++ nodeName f ++ "' copied to clipboard"])
  | none => (st, [])

/-- `FileManager.cut_file`: mark the selected entry for cut. -/
def cut_file (st : FMState) : FMState × List String :=
  match st.files[st.selected_index]? with
  | some f => ({ st with clipboard := some f.path, clipboard_type := some "cut" },
      ["'" ++ nodeName f ++ "' cut to clipboard"])
  | none => (st, [])

/-- `FileManager.paste_file`: with an empty slot, do nothing (no message).
Copy pastes via `copytree` / `copy2` and keeps the slot; cut moves via
`shutil.move` and clears the slot only after the move returned; any
exception is caught and reported as `Error pasting: ...` with slot, state
and snapshot untouched. -/
def paste_file (fs : Fs) (st : FMState) : Fs × FMState × List String :=
  match st.clipboard with
  | none => (fs, st, [])
  | some src =>
    let cname := src.getLastD ""
    let dest := st.current_path ++ [cname]
    if st.clipboard_type = some "copy" then
      if fsIsDirLive fs src then
        match copytree fs src dest with
        | .ok fs' => (fs', refreshSt fs' st, ["'" ++ cname ++ "' copied successfully!"])
        | .error e => (fs, st, ["Error pasting: " ++ e])
      else
        match copy2 fs src dest with
        | .ok fs' => (fs', refreshSt fs' st, ["'" ++ cname ++ "' copied successfully!"])
        | .error e => (fs, st, ["Error pasting: " ++ e])
    else if st.clipboard_type = some "cut" then
      match shutil_move fs src dest with
      | .ok fs' =>
        (fs', refreshSt fs' { st with clipboard := none, clipboard_type := none },
          ["'" ++ cname ++ "' moved successfully!"])
      | .error e => (fs, st, ["Error pasting: " ++ e])
    else (fs, refreshSt fs st, [])

/-- `FileManager.delete_file`: confirm with a y/N prompt (only an answer
lowering to exactly "y" proceeds), then `shutil.rmtree` a live directory
or `Path.unlink` anything else; failures are reported without refreshing.
An `rmtree` blocked by unreadable subdirectories is not modelled (no
claim observes it).  The created listing refresh happens on success. -/
def delete_file (fs : Fs) (st : FMState) (confirm : String) : Fs × FMState × List String :=
  match st.files[st.selected_index]? with
  | some target =>
    if lowerStr confirm = ['y'] then
      if fsIsDirLive fs target.path then
        let fs' := eraseSubtree fs target.path
        (fs', refreshSt fs' st, ["'" ++ nodeName target ++ "' deleted successfully!"])
      else if fsExistsLive fs target.path then
        let fs' := eraseSubtree fs target.path
        (fs', refreshSt fs' st, ["'" ++ nodeName target ++ "' deleted successfully!"])
      else (fs, st, ["Error deleting: FileNotFoundError"])
    else (fs, st, [])
  | none => (fs, st, [])

/-- `FileManager.rename_file`: prompt for a new name; an empty answer
aborts; otherwise `Path.rename` into the current directory and report. -/
def rename_file (fs : Fs) (st : FMState) (new_name : String) : Fs × FMState × List String :=
  match st.files[st.selected_index]? with
  | some old_file =>
    if new_name ≠ "" then
      match os_rename fs old_file.path (st.current_path ++ [new_name]) with
      | .ok fs' => (fs', refreshSt fs' st,
          ["Renamed to '" ++ new_name ++ "' successfully!"])
      | .error e => (fs, st, ["Error renaming: " ++ e])
    else (fs, st, [])
  | none => (fs, st, [])

/-- `FileManager.create_new_directory`: prompt for a name; an empty
answer aborts; `mkdir(exist_ok=False)` raises `FileExistsError` on any
existing path of that name.  The stat metadata of the created directory
is environment-determined (umask, clock) and is modelled as zeros, which
no claim observes. -/
def create_new_directory (fs : Fs) (st : FMState) (name : String) : Fs × FMState × List String :=
  if name ≠ "" then
    let new_dir := st.current_path ++ [name]
    if fsExistsLive fs new_dir then
      (fs, st, ["Directory '" ++ name ++ "' already exists!"])
    else
      let base := eraseSubtree fs new_dir
      let fs' : Fs := ⟨base.nodes ++ [⟨new_dir, true, 0, 0, 0, 0, 0, 0⟩],
        base.unreadable, base.vanished⟩
      (fs', refreshSt fs' st, ["Directory '" ++ name ++ "' created successfully!"])
  else (fs, st, [])

/-- The `sort_options` cycle of `FileManager.change_sort`. -/
def sort_options : List String := ["name", "size", "modified", "type"]

/-- `FileManager.change_sort`: advance `sort_by` to the next entry of
`sort_options` (index 0 is used when the current value is not listed),
refresh, and report. -/
def change_sort (fs : Fs) (st : FMState) : FMState × List String :=
  let current_idx := if st.sort_by ∈ sort_options then sort_options.indexOf st.sort_by else 0
  let next_idx := (current_idx + 1) % sort_options.length
  let st' := { st with sort_by := sort_options.getD next_idx "" }
  (refreshSt fs st', ["Sorted by: " ++ st'.sort_by])

/-- `FileManager.toggle_hidden`. -/
def toggle_hidden (fs : Fs) (st : FMState) : FMState × List String :=
  let st' := { st with show_hidden := !st.show_hidden }
  (refreshSt fs st',
   [if st'.show_hidden then "Hidden files: ON" else "Hidden files: OFF"])

/-- `FileManager.toggle_sort_reverse`. -/
def toggle_sort_reverse (fs : Fs) (st : FMState) : FMState × List String :=
  let st' := { st with sort_reverse := !st.sort_reverse }
  (refreshSt fs st',
   [if st'.sort_reverse then "Sort reversed: ON" else "Sort reversed: OFF"])

/-- One key event, at the granularity the dispatcher distinguishes.  The
text a handler would read through `get_input` (rename target, new
directory name, delete confirmation) travels with the key.  `charH` and
`charR` stand for the `ord('h')` / `ord('r')` branches, modelled with the
source's `curses.KEY_CTRL` conjunct read as truthy (see the design notes
of the spec; the attribute does not actually exist in the `curses`
module).  `printable c` covers the remaining ASCII range. -/
inductive Key where
  | up | down | ppage | npage | home | endk
  | enter | backspace | esc | slash | charV | charH | charR | charQ
  | f1 | f2 (new_name : String) | f3 | f4 | f5 | f6
  | f7 (dir_name : String) | f8 (confirm : String) | f9 | f10
  | printable (c : Char) | other
  deriving Repr, DecidableEq

/-- Search-entry branch of the event loop (`if self.search_mode:` in
`run`): Escape clears the query and leaves search mode, Enter leaves
search mode keeping the query, Backspace drops the last character,
printable ASCII appends; each of those refreshes; every other key is
ignored, and the branch `continue`s past the rest of the loop body. -/
def searchStep (fs : Fs) (st : FMState) (k : Key) : FMState :=
  match k with
  | .esc => refreshSt fs { st with search_mode := false, search_query := "" }
  | .enter => refreshSt fs { st with search_mode := false }
  | .backspace => refreshSt fs { st with search_query := st.search_query.dropRight 1 }
  | .slash => refreshSt fs { st with search_query := st.search_query.push '/' }
  | .charV => refreshSt fs { st with search_query := st.search_query.push 'v' }
  | .charH => refreshSt fs { st with search_query := st.search_query.push 'h' }
  | .charR => refreshSt fs { st with search_query := st.search_query.push 'r' }
  | .charQ => refreshSt fs { st with search_query := st.search_query.push 'q' }
  | .printable c =>
    if 32 ≤ c.toNat ∧ c.toNat ≤ 126 then
      refreshSt fs { st with search_query := st.search_query.push c }
    else st
  | _ => st

/-- Normal-mode dispatch of one key, the `elif` chain of `run` (without
the trailing unconditional refresh).  `f1`, `f3` and `f4` only run
external processes and leave the model state unchanged. -/
def normalStep (ph : Nat) (fs : Fs) (st : FMState) (k : Key) : Fs × FMState × List String :=
  match k with
  | .up =>
    if 0 < st.selected_index then
      let sel := st.selected_index - 1
      (fs, { st with
        selected_index := sel
        top_index := if sel < st.top_index then sel else st.top_index }, [])
    else (fs, st, [])
  | .down =>
    if st.selected_index < st.files.length - 1 then
      let sel := st.selected_index + 1
      (fs, { st with
        selected_index := sel
        top_index := if st.top_index + ph ≤ sel then sel + 1 - ph else st.top_index }, [])
    else (fs, st, [])
  | .ppage =>
    if 0 < st.selected_index then
      let sel := st.selected_index - ph
      (fs, { st with
        selected_index := sel
        top_index := if sel < st.top_index then sel else st.top_index }, [])
    else (fs, st, [])
  | .npage =>
    if st.files ≠ [] then
      let sel := min (st.files.length - 1) (st.selected_index + ph)
      (fs, { st with
        selected_index := sel
        top_index := if st.top_index + ph ≤ sel then sel + 1 - ph else st.top_index }, [])
    else (fs, st, [])
  | .home => (fs, { st with selected_index := 0, top_index := 0 }, [])
  | .endk =>
    if st.files ≠ [] then
      (fs, { st with
        selected_index := st.files.length - 1
        top_index := st.files.length - ph }, [])
    else (fs, st, [])
  | .enter => let r := navigate_into fs st; (fs, r.1, r.2)
  | .backspace => (fs, navigate_to_parent fs st, [])
  | .slash => (fs, { st with search_mode := true, search_query := "" }, [])
  | .charV => paste_file fs st
  | .f1 => (fs, st, [])
  | .f2 new_name => rename_file fs st new_name
  | .f3 => (fs, st, [])
  | .f4 => (fs, st, [])
  | .f5 => let r := copy_file st; (fs, r.1, r.2)
  | .f6 => let r := cut_file st; (fs, r.1, r.2)
  | .f7 dir_name => create_new_directory fs st dir_name
  | .f8 confirm => delete_file fs st confirm
  | .f9 => let r := change_sort fs st; (fs, r.1, r.2)
  | .f10 => (fs, { st with quit := true }, [])
  | .charH => let r := toggle_hidden fs st; (fs, r.1, r.2)
  | .charR => let r := toggle_sort_reverse fs st; (fs, r.1, r.2)
  | .charQ => (fs, { st with quit := true }, [])
  | .esc => (fs, st, [])
  | .printable _ => (fs, st, [])
  | .other => (fs, st, [])

/-- One iteration of the event loop of `FileManager.run` on one key:
`draw_ui` fixes the pane height `ph` from the terminal, the search branch
handles (and `continue`s past) the key while search mode is on, otherwise
the normal-mode chain runs followed by the unconditional trailing
`self.refresh_files()`. -/
def stepRun (ph : Nat) (fs : Fs) (st : FMState) (k : Key) : Fs × FMState × List String :=
  if st.search_mode then (fs, searchStep fs st k, [])
  else
    let r := normalStep ph fs st k
    (r.1, refreshSt r.1 r.2.1, r.2.2)

/-! Generic facts about the stable insertion sort and the comparators. -/

/-- Totality of a Boolean relation. -/
def TotalB {α : Type} (le : α → α → Bool) : Prop :=
  ∀ a b, le a b = true ∨ le b a = true

/-- Transitivity of a Boolean relation. -/
def TransB {α : Type} (le : α → α → Bool) : Prop :=
  ∀ a b c, le a b = true → le b c = true → le a c = true

theorem mem_insertLe {α : Type} (le : α → α → Bool) (a x : α) :
    ∀ l : List α, x ∈ insertLe le a l ↔ x = a ∨ x ∈ l := by
  intro l
  induction l with
  | nil => simp [insertLe]
  | cons b l ih =>
    simp only [insertLe]
    split
    · simp [List.mem_cons]
    · simp only [List.mem_cons, ih]
      tauto

theorem mem_sortLe {α : Type} (le : α → α → Bool) (x : α) :
    ∀ l : List α, x ∈ sortLe le l ↔ x ∈ l := by
  intro l
  induction l with
  | nil => simp [sortLe]
  | cons a l ih => simp [sortLe, mem_insertLe, ih]

theorem pairwise_insertLe {α : Type} {le : α → α → Bool}
    (htot : TotalB le) (htr : TransB le) (a : α) :
    ∀ l : List α, l.Pairwise (fun x y => le x y = true) →
      (insertLe le a l).Pairwise (fun x y => le x y = true) := by
  intro l
  induction l with
  | nil => simp [insertLe]
  | cons b l ih =>
    intro hp
    rw [List.pairwise_cons] at hp
    simp only [insertLe]
    split
    · rename_i hab
      rw [List.pairwise_cons]
      refine ⟨?_, List.pairwise_cons.mpr hp⟩
      intro z hz
      rcases List.mem_cons.mp hz with rfl | hz
      · exact hab
      · exact htr a b z hab (hp.1 z hz)
    · rename_i hab
      rw [List.pairwise_cons]
      constructor
      · intro z hz
        rcases (mem_insertLe le a z l).mp hz with rfl | hz
        · rcases htot z b with h | h
          · exact absurd h hab
          · exact h
        · exact hp.1 z hz
      · exact ih hp.2

theorem pairwise_sortLe {α : Type} {le : α → α → Bool}
    (htot : TotalB le) (htr : TransB le) :
    ∀ l : List α, (sortLe le l).Pairwise (fun x y => le x y = true) := by
  intro l
  induction l with
  | nil => simp [sortLe]
  | cons a l ih => exact pairwise_insertLe htot htr a _ ih

theorem sortLe_eq_self {α : Type} {le : α → α → Bool} :
    ∀ l : List α, l.Pairwise (fun x y => le x y = true) → sortLe le l = l := by
  intro l
  induction l with
  | nil => intro; rfl
  | cons a l ih =>
    intro hp
    rw [List.pairwise_cons] at hp
    simp only [sortLe, ih hp.2]
    cases l with
    | nil => rfl
    | cons b l' =>
      have hab : le a b = true := hp.1 b (List.mem_cons_self b l')
      simp [insertLe, hab]

theorem sortLe_idem {α : Type} {le : α → α → Bool}
    (htot : TotalB le) (htr : TransB le) (l : List α) :
    sortLe le (sortLe le l) = sortLe le l :=
  sortLe_eq_self _ (pairwise_sortLe htot htr l)

theorem charListLe_total : TotalB charListLe := by
  intro a
  induction a with
  | nil => intro b; left; rfl
  | cons x xs ih =>
    intro b
    cases b with
    | nil => right; rfl
    | cons y ys =>
      simp only [charListLe]
      rcases Nat.lt_trichotomy x.toNat y.toNat with h | h | h
      · left; simp [h]
      · have h1 : ¬x.toNat < y.toNat := by omega
        have h2 : ¬y.toNat < x.toNat := by omega
        simp only [h1, h2, if_false]
        exact ih ys
      · right; simp [h]

theorem charListLe_trans : TransB charListLe := by
  intro a
  induction a with
  | nil => intro b c _ _; cases c <;> cases b <;> rfl
  | cons x xs ih =>
    intro b c hab hbc
    cases b with
    | nil => simp [charListLe] at hab
    | cons y ys =>
      cases c with
      | nil => simp [charListLe] at hbc
      | cons z zs =>
        simp only [charListLe] at hab hbc ⊢
        split_ifs at hab hbc ⊢ <;>
          first
          | rfl
          | omega
          | (exact Bool.noConfusion hab)
          | (exact Bool.noConfusion hbc)
          | (exact ih ys zs hab hbc)

theorem natLeB_total : TotalB natLeB := by
  intro a b
  simp only [natLeB, decide_eq_true_eq]
  omega

theorem natLeB_trans : TransB natLeB := by
  intro a b c hab hbc
  simp only [natLeB, decide_eq_true_eq] at *
  omega

theorem mem_pySortKey {α K : Type} (le : K → K → Bool) (key : α → K)
    (rev : Bool) (x : α) (l : List α) :
    x ∈ pySortKey le key rev l ↔ x ∈ l := by
  unfold pySortKey
  split <;> exact mem_sortLe _ _ _

theorem pySortKey_idem {α K : Type} {le : K → K → Bool}
    (htot : TotalB le) (htr : TransB le) (key : α → K) (rev : Bool)
    (l : List α) :
    pySortKey le key rev (pySortKey le key rev l) = pySortKey le key rev l := by
  unfold pySortKey
  split
  · exact sortLe_idem (fun a b => htot (key b) (key a))
      (fun a b c h1 h2 => htr (key c) (key b) (key a) h2 h1) l
  · exact sortLe_idem (fun a b => htot (key a) (key b))
      (fun a b c h1 h2 => htr (key a) (key b) (key c) h1 h2) l

theorem mem_sortListing (fs : Fs) (sort_by : String) (rev : Bool)
    (x : FsNode) (l : List FsNode) :
    x ∈ sortListing fs sort_by rev l ↔ x ∈ l := by
  unfold sortListing
  split_ifs <;> first | rfl | exact mem_pySortKey _ _ _ _ _

theorem sortListing_idem (fs : Fs) (sort_by : String) (rev : Bool)
    (l : List FsNode) :
    sortListing fs sort_by rev (sortListing fs sort_by rev l) =
      sortListing fs sort_by rev l := by
  unfold sortListing
  split_ifs <;>
    first
    | rfl
    | exact pySortKey_idem charListLe_total charListLe_trans _ _ _
    | exact pySortKey_idem natLeB_total natLeB_trans _ _ _

theorem refresh_files_unreadable (fs : Fs) (cur : List String) (sb : String)
    (rev hid sm : Bool) (q : String) (h : cur ∈ fs.unreadable) :
    refresh_files fs cur sb rev hid sm q = [] := by
  simp [refresh_files, h]

theorem refresh_mem_forward {fs : Fs} {cur : List String} {sb : String}
    {rev hid sm : Bool} {q : String} {x : FsNode}
    (hx : x ∈ refresh_files fs cur sb rev hid sm q) :
    x ∈ fsChildren fs cur ∧
      (hid = true ∨ prefixB ['.'] (nodeName x).data = false) := by
  by_cases h : cur ∈ fs.unreadable
  · rw [refresh_files_unreadable fs cur sb rev hid sm q h] at hx
    cases hx
  · simp only [refresh_files, if_neg h] at hx
    have hx' : x ∈
        sortListing fs sb rev (((if hid then fsChildren fs cur
            else (fsChildren fs cur).filter
              (fun f => !prefixB ['.'] (nodeName f).data)).filter
          (fun f => fsIsDirLive fs f.path))) ++
        sortListing fs sb rev (((if hid then fsChildren fs cur
            else (fsChildren fs cur).filter
              (fun f => !prefixB ['.'] (nodeName f).data)).filter
          (fun f => !fsIsDirLive fs f.path))) := by
      split at hx
      · exact (List.mem_filter.mp hx).1
      · exact hx
    rw [List.mem_append, mem_sortListing, mem_sortListing] at hx'
    have hx2 : x ∈ (if hid then fsChildren fs cur
        else (fsChildren fs cur).filter
          (fun f => !prefixB ['.'] (nodeName f).data)) := by
      rcases hx' with h' | h' <;> exact (List.mem_filter.mp h').1
    cases hid
    · rw [if_neg (by simp)] at hx2
      have := List.mem_filter.mp hx2
      exact ⟨this.1, Or.inr (by simpa using this.2)⟩
    · rw [if_pos rfl] at hx2
      exact ⟨hx2, Or.inl rfl⟩

theorem refresh_mem_backward {fs : Fs} {cur : List String} {sb : String}
    {rev hid : Bool} {q : String} {x : FsNode}
    (h : cur ∉ fs.unreadable) (hx : x ∈ fsChildren fs cur)
    (hdot : hid = true ∨ prefixB ['.'] (nodeName x).data = false) :
    x ∈ refresh_files fs cur sb rev hid false q := by
  simp only [refresh_files, if_neg h]
  rw [if_neg (by simp)]
  rw [List.mem_append, mem_sortListing, mem_sortListing]
  have hx2 : x ∈ (if hid then fsChildren fs cur
      else (fsChildren fs cur).filter
        (fun f => !prefixB ['.'] (nodeName f).data)) := by
    cases hid
    · rw [if_neg (by simp)]
      rcases hdot with h' | hdot
      · cases h'
      · exact List.mem_filter.mpr ⟨hx, by simpa using hdot⟩
    · rw [if_pos rfl]; exact hx
  by_cases hd : fsIsDirLive fs x.path
  · exact Or.inl (List.mem_filter.mpr ⟨hx2, by simpa using hd⟩)
  · exact Or.inr (List.mem_filter.mpr ⟨hx2, by simpa using hd⟩)

/-! Projection facts: `refresh_files` only rewrites the `files` field. -/

@[simp] theorem refreshSt_current_path (fs : Fs) (st : FMState) :
    (refreshSt fs st).current_path = st.current_path := rfl

@[simp] theorem refreshSt_selected_index (fs : Fs) (st : FMState) :
    (refreshSt fs st).selected_index = st.selected_index := rfl

@[simp] theorem refreshSt_top_index (fs : Fs) (st : FMState) :
    (refreshSt fs st).top_index = st.top_index := rfl

@[simp] theorem refreshSt_sort_by (fs : Fs) (st : FMState) :
    (refreshSt fs st).sort_by = st.sort_by := rfl

@[simp] theorem refreshSt_sort_reverse (fs : Fs) (st : FMState) :
    (refreshSt fs st).sort_reverse = st.sort_reverse := rfl

@[simp] theorem refreshSt_show_hidden (fs : Fs) (st : FMState) :
    (refreshSt fs st).show_hidden = st.show_hidden := rfl

@[simp] theorem refreshSt_clipboard (fs : Fs) (st : FMState) :
    (refreshSt fs st).clipboard = st.clipboard := rfl

@[simp] theorem refreshSt_clipboard_type (fs : Fs) (st : FMState) :
    (refreshSt fs st).clipboard_type = st.clipboard_type := rfl

@[simp] theorem refreshSt_search_mode (fs : Fs) (st : FMState) :
    (refreshSt fs st).search_mode = st.search_mode := rfl

@[simp] theorem refreshSt_search_query (fs : Fs) (st : FMState) :
    (refreshSt fs st).search_query = st.search_query := rfl

@[simp] theorem refreshSt_quit (fs : Fs) (st : FMState) :
    (refreshSt fs st).quit = st.quit := rfl

@[simp] theorem refreshSt_files (fs : Fs) (st : FMState) :
    (refreshSt fs st).files = refresh_files fs st.current_path st.sort_by
      st.sort_reverse st.show_hidden st.search_mode st.search_query := rfl

/-! C7: paste with an empty clipboard slot. -/

/-- Fixture: one regular file under `h`, nothing marked. -/
def fs7 : Fs := ⟨[⟨["h", "x"], false, 1, 1, 0, 0, 0, 1⟩], [], []⟩

/-- Fixture state sitting in `h` with an empty clipboard. -/
def st7 : FMState :=
  { current_path := ["h"]
    selected_index := 0
    top_index := 0
    files := [⟨["h", "x"], false, 1, 1, 0, 0, 0, 1⟩]
    sort_by := "name"
    sort_reverse := false
    show_hidden := false
    clipboard := none
    clipboard_type := none
    search_mode := false
    search_query := ""
    quit := false }

/-- C7 counterexample: with an empty slot, `paste_file` leaves the
filesystem and the state untouched but emits NO message at all — the
claimed "nothing to paste" report does not exist in the code
(`if self.clipboard:` simply falls through). -/
theorem C7_counterexample :
    (paste_file fs7 st7).1 = fs7 ∧ (paste_file fs7 st7).2.1 = st7 ∧
      (paste_file fs7 st7).2.2 = [] := by
  refine ⟨rfl, rfl, rfl⟩

/-- C7 amended: paste with an empty clipboard slot is a complete no-op —
no filesystem change, no state change, and also no message reported. -/
theorem C7_paste_empty_noop (fs : Fs) (st : FMState) (h : st.clipboard = none) :
    paste_file fs st = (fs, st, []) := by
  unfold paste_file
  rw [h]

/-- C7 witness. -/
theorem C7_witness : paste_file fs7 st7 = (fs7, st7, []) :=
  C7_paste_empty_noop fs7 st7 rfl

/-! C4: clipboard slot lifecycle across paste. -/

/-- C4: with a populated slot, a Copy paste (successful or failed) retains
the slot unchanged, and a Cut paste clears the slot exactly when
`shutil.move` succeeded — a failed cut-paste leaves the marked source and
the Cut mode in place. -/
theorem C4_clipboard_lifecycle (fs : Fs) (st : FMState) (src : List String)
    (h : st.clipboard = some src) :
    (st.clipboard_type = some "copy" →
      (paste_file fs st).2.1.clipboard = st.clipboard ∧
      (paste_file fs st).2.1.clipboard_type = st.clipboard_type) ∧
    (st.clipboard_type = some "cut" →
      (paste_file fs st).2.1.clipboard =
        (if (shutil_move fs src (st.current_path ++ [src.getLastD ""])).isOk
          then none else st.clipboard) ∧
      (paste_file fs st).2.1.clipboard_type =
        (if (shutil_move fs src (st.current_path ++ [src.getLastD ""])).isOk
          then none else st.clipboard_type)) := by
  constructor
  · intro hc
    unfold paste_file
    simp only [h, hc, Option.some.injEq, String.reduceEq, reduceIte, ite_true]
    split
    · rcases hct : copytree fs src (st.current_path ++ [src.getLastD ""]) with fs' | e <;>
        simp [hct, h, hc]
    · rcases hct : copy2 fs src (st.current_path ++ [src.getLastD ""]) with fs' | e <;>
        simp [hct, h, hc]
  · intro hc
    unfold paste_file
    simp only [h, hc, Option.some.injEq, String.reduceEq, reduceIte, ite_true]
    rcases hmv : shutil_move fs src (st.current_path ++ [src.getLastD ""]) with fs' | e <;>
      simp [hmv, Except.isOk, Except.toBool, h, hc]

/-- Fixture: empty filesystem — the cut-marked source has vanished. -/
def fs4 : Fs := ⟨[], [], []⟩

/-- Fixture state with a Cut-marked source that no longer exists. -/
def st4 : FMState :=
  { current_path := ["h"]
    selected_index := 0
    top_index := 0
    files := []
    sort_by := "name"
    sort_reverse := false
    show_hidden := false
    clipboard := some ["h", "gone"]
    clipboard_type := some "cut"
    search_mode := false
    search_query := ""
    quit := false }

/-- C4 witness: a failed cut-paste (source vanished) leaves the slot. -/
theorem C4_witness :
    (paste_file fs4 st4).2.1.clipboard = some ["h", "gone"] ∧
    (paste_file fs4 st4).2.1.clipboard_type = some "cut" := by
  have h := (C4_clipboard_lifecycle fs4 st4 ["h", "gone"] rfl).2 rfl
  refine ⟨?_, ?_⟩
  · rw [h.1]; decide
  · rw [h.2]; decide

/-! C6: paste onto an existing destination name. -/

theorem fsExistsLive_of_isDir {fs : Fs} {p : List String}
    (h : fsIsDirLive fs p = true) : fsExistsLive fs p = true := by
  unfold fsIsDirLive at h
  unfold fsExistsLive
  rcases hf : fsFind fs p with _ | n
  · rw [hf] at h; cases h
  · rw [hf] at h
    rw [Bool.and_eq_true] at h
    simp only [Option.isSome_some, Bool.true_and]
    exact h.2

/-- C6 amended: pasting a Copy-marked DIRECTORY onto an existing
destination name aborts before any mutation and reports the error
(`copytree` raises `FileExistsError` at `makedirs`, caught by the paste
handler); pasting a Copy-marked REGULAR FILE onto an existing regular
file succeeds silently — `copy2` overwrites the destination and the
handler reports success, not a collision. -/
theorem C6_paste_existing_dest (fs : Fs) (st : FMState) (src : List String)
    (h : st.clipboard = some src) (hc : st.clipboard_type = some "copy") :
    (fsIsDirLive fs src = true →
      fsExistsLive fs (st.current_path ++ [src.getLastD ""]) = true →
      paste_file fs st = (fs, st, ["Error pasting: FileExistsError"])) ∧
    (fsIsDirLive fs src = false →
      fsExistsLive fs src = true →
      fsExistsLive fs (st.current_path ++ [src.getLastD ""]) = true →
      fsIsDirLive fs (st.current_path ++ [src.getLastD ""]) = false →
      src ≠ st.current_path ++ [src.getLastD ""] →
      (copy2 fs src (st.current_path ++ [src.getLastD ""])).isOk = true ∧
      (paste_file fs st).2.2 =
        ["'" ++ src.getLastD "" ++ "' copied successfully!"]) := by
  constructor
  · intro hdir hdest
    have hse := fsExistsLive_of_isDir hdir
    have hct : copytree fs src (st.current_path ++ [src.getLastD ""]) =
        Except.error "FileExistsError" := by
      unfold copytree
      rw [hse, hdir, hdest]
      simp
    unfold paste_file
    simp only [h, hc, Option.some.injEq, String.reduceEq, reduceIte, hdir,
      if_true, hct]
    rfl
  · intro hdir hsrc hdest hdd hne
    have hfind : ∃ sn, fsFind fs src = some sn := by
      have h1 := hsrc
      unfold fsExistsLive at h1
      rw [Bool.and_eq_true] at h1
      exact Option.isSome_iff_exists.mp h1.1
    obtain ⟨sn, hsn⟩ := hfind
    have hcopy : ∃ fs', copy2 fs src (st.current_path ++ [src.getLastD ""]) =
        Except.ok fs' := by
      unfold copy2
      simp only [hdd, Bool.false_eq_true, if_false, hsrc, Bool.not_true,
        hdir, hsn, if_neg hne]
      exact ⟨_, rfl⟩
    obtain ⟨fs', hcopy⟩ := hcopy
    constructor
    · rw [hcopy]; rfl
    · unfold paste_file
      simp only [h, hc, Option.some.injEq, String.reduceEq, reduceIte, hdir,
        Bool.false_eq_true, if_false, hcopy]

/-- Fixture: regular file `s/a` (size 5) marked for copy, and a distinct
regular file `h/a` (size 99) already sitting at the destination name. -/
def fs6 : Fs :=
  ⟨[⟨["s", "a"], false, 5, 7, 0, 0, 0, 11⟩,
    ⟨["h", "a"], false, 99, 8, 0, 0, 0, 12⟩], [], []⟩

/-- Fixture state in `h` with `s/a` Copy-marked. -/
def st6 : FMState :=
  { current_path := ["h"]
    selected_index := 0
    top_index := 0
    files := [⟨["h", "a"], false, 99, 8, 0, 0, 0, 12⟩]
    sort_by := "name"
    sort_reverse := false
    show_hidden := false
    clipboard := some ["s", "a"]
    clipboard_type := some "copy"
    search_mode := false
    search_query := ""
    quit := false }

/-- C6 counterexample: pasting the Copy-marked regular file `s/a` into a
directory already holding an `a` is NOT aborted and NOT reported as a
collision — the handler reports success and the pre-existing destination
entry is overwritten (size 99 becomes size 5). -/
theorem C6_counterexample :
    (paste_file fs6 st6).2.2 = ["'a' copied successfully!"] ∧
    fsFind fs6 ["h", "a"] = some ⟨["h", "a"], false, 99, 8, 0, 0, 0, 12⟩ ∧
    fsFind (paste_file fs6 st6).1 ["h", "a"] =
      some ⟨["h", "a"], false, 5, 7, 0, 0, 0, 11⟩ := by
  refine ⟨by decide, by decide, by decide⟩

/-- Fixture: directory `s/d` marked for copy, with a file inside, and an
entry `h/d` already at the destination name. -/
def fs6d : Fs :=
  ⟨[⟨["s", "d"], true, 0, 0, 0, 0, 0, 21⟩,
    ⟨["s", "d", "f"], false, 3, 3, 0, 0, 0, 22⟩,
    ⟨["h", "d"], true, 0, 0, 0, 0, 0, 23⟩], [], []⟩

/-- Fixture state in `h` with the directory `s/d` Copy-marked. -/
def st6d : FMState :=
  { current_path := ["h"]
    selected_index := 0
    top_index := 0
    files := [⟨["h", "d"], true, 0, 0, 0, 0, 0, 23⟩]
    sort_by := "name"
    sort_reverse := false
    show_hidden := false
    clipboard := some ["s", "d"]
    clipboard_type := some "copy"
    search_mode := false
    search_query := ""
    quit := false }

/-- C6 witness: the directory collision branch of the theorem at a
concrete input. -/
theorem C6_witness :
    paste_file fs6d st6d = (fs6d, st6d, ["Error pasting: FileExistsError"]) :=
  (C6_paste_existing_dest fs6d st6d ["s", "d"] rfl rfl).1 (by decide) (by decide)

/-! C5: listing refresh and per-entry stat error handling. -/

/-- C5: the listing refresh is a total function of the snapshot (it never
raises to its caller); a `PermissionError` from `iterdir` yields the
empty listing; a per-entry stat failure yields the fixed placeholder
metadata in `get_file_info` (size rendered as "0 B", permissions all
unknown, owner and group "?"); and an entry whose stat / exists calls
fail (a vanished path) is still kept by the listing refresh rather than
dropped. -/
theorem C5_refresh_error_handling :
    (∀ (fs : Fs) (cur : List String) (sb : String) (rev hid sm : Bool)
        (q : String), cur ∈ fs.unreadable →
        refresh_files fs cur sb rev hid sm q = []) ∧
    (∀ (env : Env) (fs : Fs) (p : List String), fsStat fs p = none →
        get_file_info env fs p =
          ⟨"0 B", "????????", "?", "?", "????-??-?? ??:??", none⟩) ∧
    (∀ (fs : Fs) (cur : List String) (sb : String) (rev hid : Bool)
        (q : String) (x : FsNode), cur ∉ fs.unreadable →
        x ∈ fsChildren fs cur → x.path ∈ fs.vanished →
        (hid = true ∨ prefixB ['.'] (nodeName x).data = false) →
        x ∈ refresh_files fs cur sb rev hid false q) := by
  refine ⟨?_, ?_, ?_⟩
  · intro fs cur sb rev hid sm q h
    exact refresh_files_unreadable fs cur sb rev hid sm q h
  · intro env fs p h
    unfold get_file_info
    rw [h]
  · intro fs cur sb rev hid q x h hx _ hdot
    exact refresh_mem_backward h hx hdot

/-- Fixture: one visible child of `h` still in the listing snapshot but
vanished before its stat, one unreadable directory `z`. -/
def fs5 : Fs :=
  ⟨[⟨["h", "gone.txt"], false, 4, 4, 0, 0, 0, 31⟩], [["z"]], [["h", "gone.txt"]]⟩

/-- Fixture environment with empty name databases. -/
def env5 : Env := ⟨fun _ => none, fun _ => none, fun _ => ""⟩

/-- C5 witness: the three parts of the theorem at concrete inputs. -/
theorem C5_witness :
    refresh_files fs5 ["z"] "name" false false false "" = [] ∧
    get_file_info env5 fs5 ["h", "gone.txt"] =
      ⟨"0 B", "????????", "?", "?", "????-??-?? ??:??", none⟩ ∧
    (⟨["h", "gone.txt"], false, 4, 4, 0, 0, 0, 31⟩ : FsNode) ∈
      refresh_files fs5 ["h"] "size" false false false "" := by
  refine ⟨?_, ?_, ?_⟩
  · exact C5_refresh_error_handling.1 fs5 ["z"] "name" false false false ""
      (by decide)
  · exact C5_refresh_error_handling.2.1 env5 fs5 ["h", "gone.txt"] (by decide)
  · exact C5_refresh_error_handling.2.2 fs5 ["h"] "size" false false ""
      ⟨["h", "gone.txt"], false, 4, 4, 0, 0, 0, 31⟩ (by decide) (by decide)
      (by decide) (by decide)

/-! C3: entering a directory the process cannot list. -/

/-- C3 amended: when the enter-directory command is applied to a selected
directory that cannot be listed, the path IS changed to that directory,
`selectedIndex` and `topIndex` are reset to 0, the listing becomes empty,
and NO message is surfaced: the `except PermissionError` handler in
`navigate_into` is unreachable because `refresh_files` catches the error
internally and returns the empty listing. -/
theorem C3_navigate_into_permission (fs : Fs) (st : FMState) (s : FsNode)
    (hsel : st.files[st.selected_index]? = some s)
    (hdir : fsIsDirLive fs s.path = true)
    (hunread : s.path ∈ fs.unreadable) :
    navigate_into fs st =
      ({ st with
          current_path := s.path
          selected_index := 0
          top_index := 0
          files := [] }, []) := by
  unfold navigate_into
  rw [hsel]
  simp only [hdir, if_true, refreshSt]
  rw [refresh_files_unreadable fs s.path st.sort_by st.sort_reverse
    st.show_hidden st.search_mode st.search_query hunread]

/-- Fixture: two directories under `h`; `h/z` is unreadable. -/
def fs3 : Fs :=
  ⟨[⟨["h", "a"], true, 0, 0, 0, 0, 0, 41⟩,
    ⟨["h", "z"], true, 0, 0, 0, 0, 0, 42⟩], [["h", "z"]], []⟩

/-- Fixture state in `h` with `h/z` selected (index 1, not 0). -/
def st3 : FMState :=
  { current_path := ["h"]
    selected_index := 1
    top_index := 0
    files := [⟨["h", "a"], true, 0, 0, 0, 0, 0, 41⟩,
              ⟨["h", "z"], true, 0, 0, 0, 0, 0, 42⟩]
    sort_by := "name"
    sort_reverse := false
    show_hidden := false
    clipboard := none
    clipboard_type := none
    search_mode := false
    search_query := ""
    quit := false }

/-- C3 counterexample: entering the unreadable directory `h/z` changes
the path (claim says it stays `h`), resets the selection from 1 to 0
(claim says it is untouched), and emits no message (claim says a
transient message is surfaced). -/
theorem C3_counterexample :
    (navigate_into fs3 st3).1.current_path = ["h", "z"] ∧
    st3.current_path = ["h"] ∧
    (navigate_into fs3 st3).1.selected_index = 0 ∧
    st3.selected_index = 1 ∧
    (navigate_into fs3 st3).2 = [] := by
  refine ⟨by decide, by decide, by decide, by decide, by decide⟩

/-- C3 witness. -/
theorem C3_witness :
    navigate_into fs3 st3 =
      ({ st3 with
          current_path := ["h", "z"]
          selected_index := 0
          top_index := 0
          files := [] }, []) :=
  C3_navigate_into_permission fs3 st3 ⟨["h", "z"], true, 0, 0, 0, 0, 0, 42⟩
    (by decide) (by decide) (by decide)

/-! C2: confirming a search with Enter. -/

/-- C2 amended: pressing Enter in Search-Entry mode returns to Normal
mode WITHOUT clearing the query — but the refresh triggered in that very
branch runs with `search_mode` already false, and `refresh_files` applies
the query filter only while search mode is on, so the resulting listing
is the UNFILTERED one; the filtered view does not persist. -/
theorem C2_search_confirm (ph : Nat) (fs : Fs) (st : FMState)
    (h : st.search_mode = true) :
    (stepRun ph fs st Key.enter).2.1.search_mode = false ∧
    (stepRun ph fs st Key.enter).2.1.search_query = st.search_query ∧
    (stepRun ph fs st Key.enter).2.1.files =
      refresh_files fs st.current_path st.sort_by st.sort_reverse
        st.show_hidden false st.search_query := by
  unfold stepRun
  rw [if_pos h]
  unfold searchStep
  refine ⟨rfl, rfl, rfl⟩

/-- Fixture: three regular files under `h`: `a.txt`, `b.txt`, `abc`. -/
def fs2 : Fs :=
  ⟨[⟨["h", "a.txt"], false, 1, 1, 0, 0, 0, 51⟩,
    ⟨["h", "b.txt"], false, 2, 2, 0, 0, 0, 52⟩,
    ⟨["h", "abc"], false, 3, 3, 0, 0, 0, 53⟩], [], []⟩

/-- Fixture state in Search-Entry mode with query "a", currently showing
the filtered listing. -/
def st2 : FMState :=
  { current_path := ["h"]
    selected_index := 0
    top_index := 0
    files := [⟨["h", "a.txt"], false, 1, 1, 0, 0, 0, 51⟩,
              ⟨["h", "abc"], false, 3, 3, 0, 0, 0, 53⟩]
    sort_by := "name"
    sort_reverse := false
    show_hidden := false
    clipboard := none
    clipboard_type := none
    search_mode := true
    search_query := "a"
    quit := false }

/-- C2 counterexample: after Enter the query is still "a", yet the
listing is refreshed UNFILTERED — `b.txt`, whose name does not contain
"a", is back in the view, contradicting the claimed persistence of the
filtered view. -/
theorem C2_counterexample :
    (stepRun 5 fs2 st2 Key.enter).2.1.search_query = "a" ∧
    (stepRun 5 fs2 st2 Key.enter).2.1.search_mode = false ∧
    (⟨["h", "b.txt"], false, 2, 2, 0, 0, 0, 52⟩ : FsNode) ∈
      (stepRun 5 fs2 st2 Key.enter).2.1.files := by
  refine ⟨by decide, by decide, by decide⟩

/-- C2 witness. -/
theorem C2_witness :
    (stepRun 5 fs2 st2 Key.enter).2.1.search_mode = false ∧
    (stepRun 5 fs2 st2 Key.enter).2.1.search_query = st2.search_query ∧
    (stepRun 5 fs2 st2 Key.enter).2.1.files =
      refresh_files fs2 st2.current_path st2.sort_by st2.sort_reverse
        st2.show_hidden false st2.search_query :=
  C2_search_confirm 5 fs2 st2 rfl

/-! C10: frame property of Search-Entry mode. -/

/-- C10: while the dispatcher is in Search-Entry mode, one key event
never touches the snapshot, emits no message, and leaves the current
path, selection, scroll, sort key and direction, hidden flag, clipboard
slot and quit flag unchanged — only the search-mode flag, the query and
the derived listing may change. -/
theorem C10_search_frame (ph : Nat) (fs : Fs) (st : FMState) (k : Key)
    (h : st.search_mode = true) :
    (stepRun ph fs st k).1 = fs ∧
    ((stepRun ph fs st k).2.1.current_path = st.current_path ∧
     (stepRun ph fs st k).2.1.selected_index = st.selected_index ∧
     (stepRun ph fs st k).2.1.top_index = st.top_index ∧
     (stepRun ph fs st k).2.1.sort_by = st.sort_by ∧
     (stepRun ph fs st k).2.1.sort_reverse = st.sort_reverse ∧
     (stepRun ph fs st k).2.1.show_hidden = st.show_hidden ∧
     (stepRun ph fs st k).2.1.clipboard = st.clipboard ∧
     (stepRun ph fs st k).2.1.clipboard_type = st.clipboard_type ∧
     (stepRun ph fs st k).2.1.quit = st.quit) ∧
    (stepRun ph fs st k).2.2 = [] := by
  unfold stepRun
  rw [if_pos h]
  refine ⟨rfl, ?_, rfl⟩
  cases k
  case printable c =>
    dsimp only [searchStep]
    by_cases hc : 32 ≤ c.toNat ∧ c.toNat ≤ 126
    · rw [if_pos hc]
      exact ⟨rfl, rfl, rfl, rfl, rfl, rfl, rfl, rfl, rfl⟩
    · rw [if_neg hc]
      exact ⟨rfl, rfl, rfl, rfl, rfl, rfl, rfl, rfl, rfl⟩
  all_goals exact ⟨rfl, rfl, rfl, rfl, rfl, rfl, rfl, rfl, rfl⟩

/-- C10 witness: an Up-arrow key during search entry at a concrete state. -/
theorem C10_witness :
    (stepRun 5 fs2 st2 Key.up).1 = fs2 ∧
    ((stepRun 5 fs2 st2 Key.up).2.1.current_path = st2.current_path ∧
     (stepRun 5 fs2 st2 Key.up).2.1.selected_index = st2.selected_index ∧
     (stepRun 5 fs2 st2 Key.up).2.1.top_index = st2.top_index ∧
     (stepRun 5 fs2 st2 Key.up).2.1.sort_by = st2.sort_by ∧
     (stepRun 5 fs2 st2 Key.up).2.1.sort_reverse = st2.sort_reverse ∧
     (stepRun 5 fs2 st2 Key.up).2.1.show_hidden = st2.show_hidden ∧
     (stepRun 5 fs2 st2 Key.up).2.1.clipboard = st2.clipboard ∧
     (stepRun 5 fs2 st2 Key.up).2.1.clipboard_type = st2.clipboard_type ∧
     (stepRun 5 fs2 st2 Key.up).2.1.quit = st2.quit) ∧
    (stepRun 5 fs2 st2 Key.up).2.2 = [] :=
  C10_search_frame 5 fs2 st2 Key.up rfl

/-! C8: ordering of the pipeline stages and filter correctness. -/

/-- Fixture: directory `h` with entries `a.txt`, `b.txt`, `abc`. -/
def fs8 : Fs :=
  ⟨[⟨["h", "b.txt"], false, 1, 1, 0, 0, 0, 61⟩,
    ⟨["h", "a.txt"], false, 2, 2, 0, 0, 0, 62⟩,
    ⟨["h", "abc"], false, 3, 3, 0, 0, 0, 63⟩], [], []⟩

/-- C8: search filtering is a final pass over the hidden-filtered,
partitioned, sorted, directories-first concatenation — the listing with
search active and query `q` is exactly the case-insensitive-substring
filter of the listing computed without search; an empty query yields the
unfiltered listing; with `showHidden` off no name starting with a dot
survives; and on the concrete directory `{a.txt, b.txt, abc}` with the
default name sort, query "a" yields exactly `a.txt`, `abc` in sort
order. -/
theorem C8_pipeline_stages (fs : Fs) (cur : List String) (sb : String)
    (rev hid : Bool) (q : String) :
    (q ≠ "" →
      refresh_files fs cur sb rev hid true q =
        (refresh_files fs cur sb rev hid false q).filter
          (fun f => sublistB (lowerStr q) (lowerStr (nodeName f)))) ∧
    (refresh_files fs cur sb rev hid true "" =
      refresh_files fs cur sb rev hid false "") ∧
    (∀ (sm : Bool) (q' : String) (f : FsNode),
      f ∈ refresh_files fs cur sb rev false sm q' →
      prefixB ['.'] (nodeName f).data = false) ∧
    (refresh_files fs8 ["h"] "name" false false true "a" =
      [⟨["h", "a.txt"], false, 2, 2, 0, 0, 0, 62⟩,
       ⟨["h", "abc"], false, 3, 3, 0, 0, 0, 63⟩]) := by
  refine ⟨?_, ?_, ?_, by decide⟩
  · intro hq
    by_cases h : cur ∈ fs.unreadable
    · rw [refresh_files_unreadable fs cur sb rev hid true q h,
        refresh_files_unreadable fs cur sb rev hid false q h]
      rfl
    · simp only [refresh_files, if_neg h]
      have h1 : (True ∧ q ≠ "") := ⟨trivial, hq⟩
      have h2 : ¬(false = true ∧ q ≠ "") := by simp
      rw [if_pos h1, if_neg h2]
  · by_cases h : cur ∈ fs.unreadable
    · rw [refresh_files_unreadable fs cur sb rev hid true "" h,
        refresh_files_unreadable fs cur sb rev hid false "" h]
    · simp only [refresh_files, if_neg h]
      have h1 : ¬(True ∧ ("" : String) ≠ "") := by simp
      have h2 : ¬(false = true ∧ ("" : String) ≠ "") := by simp
      rw [if_neg h1, if_neg h2]
  · intro sm q' f hf
    rcases (refresh_mem_forward hf).2 with h' | h'
    · cases h'
    · exact h'

/-- C8 witness: the final-pass equation instantiated on the concrete
directory with query "a". -/
theorem C8_witness :
    refresh_files fs8 ["h"] "name" false false true "a" =
      (refresh_files fs8 ["h"] "name" false false false "a").filter
        (fun f => sublistB (lowerStr "a") (lowerStr (nodeName f))) :=
  (C8_pipeline_stages fs8 ["h"] "name" false false "a").1 (by decide)

/-! C9: sort cycling and sort idempotence. -/

/-- The sort key written by one cycle-sort command, as a function of the
previous key alone (the refresh only rewrites the listing). -/
theorem change_sort_sort_by (fs : Fs) (st : FMState) :
    (change_sort fs st).1.sort_by =
      sort_options.getD
        (((if st.sort_by ∈ sort_options then sort_options.indexOf st.sort_by
            else 0) + 1) % sort_options.length) "" := rfl

/-- C9: from any reachable state (`sort_by` is one of the four options —
the initializer and `change_sort` only ever store those), four
applications of the cycle-sort command restore the original sort key
(name, size, modified, type, and back); and re-running the sort pass of
the pipeline with the same `(key, reverse)` on its own output reproduces
the ordering exactly (the stable sort is idempotent), so refreshing twice
with the same configuration on the same snapshot yields identical
listings. -/
theorem C9_sort_cycle (fs : Fs) (st : FMState) (h : st.sort_by ∈ sort_options) :
    ((change_sort fs ((change_sort fs ((change_sort fs
        ((change_sort fs st).1)).1)).1)).1).sort_by = st.sort_by ∧
    (∀ (sb : String) (rev : Bool) (l : List FsNode),
      sortListing fs sb rev (sortListing fs sb rev l) =
        sortListing fs sb rev l) := by
  constructor
  · simp only [sort_options, List.mem_cons, List.not_mem_nil, or_false] at h
    rcases h with h | h | h | h <;>
      (rw [change_sort_sort_by, change_sort_sort_by, change_sort_sort_by,
        change_sort_sort_by, h]; rfl)
  · intro sb rev l
    exact sortListing_idem fs sb rev l

/-- Fixture state for the sort cycle. -/
def st9 : FMState :=
  { current_path := ["h"]
    selected_index := 0
    top_index := 0
    files := []
    sort_by := "name"
    sort_reverse := false
    show_hidden := false
    clipboard := none
    clipboard_type := none
    search_mode := false
    search_query := ""
    quit := false }

/-- C9 witness: cycling four times from "name" over a concrete snapshot
returns to "name", and the name sort is idempotent on a concrete list. -/
theorem C9_witness :
    ((change_sort fs8 ((change_sort fs8 ((change_sort fs8
        ((change_sort fs8 st9).1)).1)).1)).1).sort_by = st9.sort_by ∧
    sortListing fs8 "name" false (sortListing fs8 "name" false fs8.nodes) =
      sortListing fs8 "name" false fs8.nodes := by
  have h := C9_sort_cycle fs8 st9 (by decide)
  exact ⟨h.1, h.2 "name" false fs8.nodes⟩

/-! C1: selection / scroll invariant. -/

/-- The claimed state invariant: whenever the listing is non-empty the
selected row is within bounds and inside the visible window
`[topIndex, topIndex + paneHeight - 1]`.  (`0 ≤` bounds are carried by
`Nat`.) -/
def NavInv (ph : Nat) (st : FMState) : Prop :=
  st.files ≠ [] →
    st.top_index ≤ st.selected_index ∧
    st.selected_index ≤ st.top_index + ph - 1 ∧
    st.selected_index < st.files.length

instance (ph : Nat) (st : FMState) : Decidable (NavInv ph st) := by
  unfold NavInv
  infer_instance

/-- C1 amended (positive part): the six pure navigation keys preserve the
invariant through a full event-loop iteration (including the trailing
refresh, which recomputes the same listing because navigation changes no
configuration), for any pane height of at least one row. -/
theorem C1_nav_preserves_invariant (ph : Nat) (fs : Fs) (st : FMState)
    (k : Key) (hph : 1 ≤ ph) (hsm : st.search_mode = false)
    (hfiles : st.files = refresh_files fs st.current_path st.sort_by
      st.sort_reverse st.show_hidden st.search_mode st.search_query)
    (hk : k = Key.up ∨ k = Key.down ∨ k = Key.ppage ∨ k = Key.npage ∨
      k = Key.home ∨ k = Key.endk)
    (hinv : NavInv ph st) :
    NavInv ph (stepRun ph fs st k).2.1 := by
  rw [hsm] at hfiles
  rcases hk with rfl | rfl | rfl | rfl | rfl | rfl <;>
  · simp only [stepRun, hsm, Bool.false_eq_true, if_false, normalStep]
    unfold NavInv at hinv ⊢
    try split
    all_goals
      intro hne
      simp only [refreshSt_files, refreshSt_selected_index,
        refreshSt_top_index] at hne ⊢
      first
        | rw [← hfiles] at hne ⊢
        | (rw [hsm] at hne ⊢; rw [← hfiles] at hne ⊢)
      rcases hinv hne with ⟨h1, h2, h3⟩
      first
        | (split_ifs <;> omega)
        | omega

/-- Fixture: two regular files `a`, `b` under `h`. -/
def fs1 : Fs :=
  ⟨[⟨["h", "a"], false, 1, 1, 0, 0, 0, 71⟩,
    ⟨["h", "b"], false, 2, 2, 0, 0, 0, 72⟩], [], []⟩

/-- Fixture state in `h` with the last entry (`b`) selected; the
invariant holds (pane height 5). -/
def st1 : FMState :=
  { current_path := ["h"]
    selected_index := 1
    top_index := 0
    files := [⟨["h", "a"], false, 1, 1, 0, 0, 0, 71⟩,
              ⟨["h", "b"], false, 2, 2, 0, 0, 0, 72⟩]
    sort_by := "name"
    sort_reverse := false
    show_hidden := false
    clipboard := none
    clipboard_type := none
    search_mode := false
    search_query := ""
    quit := false }

/-- C1 counterexample: deleting the selected last entry (F8 confirmed
with "y") shrinks the listing from two entries to one but leaves
`selectedIndex` at 1 — equal to the new length, pointing past the end of
the non-empty shrunk list.  No re-clamping of `selectedIndex` (nor
re-derivation of `topIndex`) exists anywhere in the code. -/
theorem C1_counterexample :
    NavInv 5 st1 ∧
    (stepRun 5 fs1 st1 (Key.f8 "y")).2.1.files.length = 1 ∧
    (stepRun 5 fs1 st1 (Key.f8 "y")).2.1.selected_index = 1 ∧
    ¬NavInv 5 (stepRun 5 fs1 st1 (Key.f8 "y")).2.1 := by
  refine ⟨by decide, by decide, by decide, by decide⟩

/-- C1 witness: a Down key on the concrete two-entry state keeps the
invariant. -/
theorem C1_witness : NavInv 5 (stepRun 5 fs1 st1 Key.down).2.1 :=
  C1_nav_preserves_invariant 5 fs1 st1 Key.down (by decide) rfl (by decide)
    (Or.inr (Or.inl rfl)) (by decide)
